import Mathlib

/-!
# Verification of the dropdown widget (`src/app/dropdown/dropdown.ts`) and
# the cascading demo coordinator (`src/app/app.ts`)

Shallow embedding of the final signal-based `Dropdown` component and the
`App` pruning effect.  TypeScript arrays become `List`, `Map` becomes an
insertion-ordered association list, `Set<string>` becomes a `List String`
used only through membership, `string | null` becomes `Option String`.
JavaScript truthiness on strings (`!key`, `v ? [v] : []`, `?? ''`) is
modelled explicitly: `null`, `undefined` and `""` are falsy.
-/

inductive DropdownMode
  | single
  | multi
  deriving DecidableEq, Repr

/-- `DropdownItem` from `dropdown.ts` (`disabled?: boolean` with `!!` coercion
modelled as a plain `Bool`, absent = `false`). -/
structure DropdownItem where
  label : String
  value : String
  disabled : Bool
  deriving DecidableEq, Repr

/-- `DropdownGroup` from `dropdown.ts`. -/
structure DropdownGroup where
  key : String
  label : String
  disabled : Bool
  deriving DecidableEq, Repr

/-- `RenderRow` tagged union from `dropdown.ts`. -/
inductive RenderRow
  | group (key : String) (label : String) (disabled : Bool)
  | option (item : DropdownItem) (disabled : Bool) (groupKey : Option String)
  deriving DecidableEq, Repr

/-- The argument of `select(row)`: an option row (`kind: 'option'`). -/
structure OptionRowArg where
  item : DropdownItem
  disabled : Bool
  deriving DecidableEq, Repr

/-- The component state: inputs (`items`, `placeholder`, `mode`, `groups`,
`groupBy`, `searchable`) together with the mutable signals (`isOpen`,
`selectedValue`, `selectedSet`, `searchQuery`, `shouldScrollToSelected`).
`selectedSet : List String` models the JS `Set<string>` (insertion order,
observed only through membership). -/
structure Dropdown where
  items : List DropdownItem
  placeholder : String
  mode : DropdownMode
  groups : List DropdownGroup
  groupBy : Option (DropdownItem → Option String)
  searchable : Bool
  isOpen : Bool
  selectedValue : Option String
  selectedSet : List String
  searchQuery : String
  shouldScrollToSelected : Bool

/-- JS `toLowerCase()` modelled character-wise (ASCII case mapping, other
characters unchanged), structurally recursive so that concrete instances
reduce in the kernel. -/
def jsToLower (s : String) : String :=
  ⟨s.data.map Char.toLower⟩

/-- JS `trim()` modelled character-wise: whitespace stripped from both ends. -/
def jsTrim (s : String) : String :=
  ⟨((s.data.dropWhile Char.isWhitespace).reverse.dropWhile Char.isWhitespace).reverse⟩

namespace Dropdown

/-- `isMulti = computed(() => this.mode() === 'multi')`. -/
def isMulti (st : Dropdown) : Bool :=
  match st.mode with
  | .multi => true
  | .single => false

/-- `selectedValues` computed.  Multi: the item list filtered by membership in
`selectedSet`, projected to values.  Single: `v ? [v] : []` — both `null` and
the empty string are falsy in JS, hence the explicit `""` test. -/
def selectedValues (st : Dropdown) : List String :=
  if st.isMulti then
    (st.items.filter (fun i => st.selectedSet.contains i.value)).map (·.value)
  else
    match st.selectedValue with
    | some v => if v = "" then [] else [v]
    | none => []

/-- `selectedItems`: the item list filtered by membership of the value in
`selectedValues` (the JS code goes through `selectedValuesSet`, a `Set`,
observed only through membership). -/
def selectedItems (st : Dropdown) : List DropdownItem :=
  st.items.filter (fun i => (st.selectedValues).contains i.value)

/-- `displayValue` computed: placeholder / sole label / joined labels /
truncated summary. -/
def displayValue (st : Dropdown) : String :=
  let selected := st.selectedItems
  if selected.length = 0 then st.placeholder
  else if !st.isMulti then
    match selected.head? with
    | some i => i.label
    | none => st.placeholder
  else if selected.length ≤ 2 then
    String.intercalate ", " (selected.map (·.label))
  else
    match selected with
    | a :: b :: _ => a.label ++ ", " ++ b.label ++ " и еще " ++ toString (selected.length - 2)
    | _ => st.placeholder

/-- `normalizedQuery = computed(() => this.searchQuery().trim().toLowerCase())`. -/
def normalizedQuery (st : Dropdown) : String :=
  jsToLower (jsTrim st.searchQuery)

/-- JS `haystack.includes(needle)`: substring containment, decided on the
character sequences. -/
def strIncludes (haystack needle : String) : Bool :=
  decide (needle.toList <:+: haystack.toList)

/-- `filteredItems` computed: identity unless `searchable` and the normalized
query is nonempty, else a case-folded substring filter on labels. -/
def filteredItems (st : Dropdown) : List DropdownItem :=
  let q := st.normalizedQuery
  if !st.searchable || q = "" then st.items
  else st.items.filter (fun i => strIncludes (jsToLower i.label) q)

end Dropdown

/-- `const key = groupBy(item); if (!key) continue;` — the key survives the
JS truthiness test only when it is neither `null` nor the empty string. -/
def keyOf (gb : DropdownItem → Option String) (item : DropdownItem) : Option String :=
  match gb item with
  | none => none
  | some k => if k = "" then none else some k

/-- One step of filling the `grouped` JS `Map`: push onto an existing bucket
(keeping its position) or append a fresh singleton bucket at the end. -/
def insertGrouped : List (String × List DropdownItem) → String → DropdownItem →
    List (String × List DropdownItem)
  | [], k, item => [(k, [item])]
  | (k', l) :: rest, k, item =>
    if k' = k then (k', l ++ [item]) :: rest
    else (k', l) :: insertGrouped rest k item

/-- The `grouped` map of `renderRows`: buckets of visible items keyed by the
surviving group key, in first-appearance order. -/
def buildGrouped (gb : DropdownItem → Option String) (items : List DropdownItem) :
    List (String × List DropdownItem) :=
  items.foldl (fun m item =>
    match keyOf gb item with
    | none => m
    | some k => insertGrouped m k item) []

/-- `grouped.get(key)`. -/
def groupedGet : List (String × List DropdownItem) → String → Option (List DropdownItem)
  | [], _ => none
  | (k', l) :: rest, k => if k' = k then some l else groupedGet rest k

/-- `grouped.has(key)`. -/
def groupedHas (m : List (String × List DropdownItem)) (k : String) : Bool :=
  (groupedGet m k).isSome

/-- `groupsMap.get(key)` where `groupsMap` is built by `map.set(g.key, g)`
over the group list: the *last* entry with the key wins. -/
def groupsMapFind (groups : List DropdownGroup) (k : String) : Option DropdownGroup :=
  groups.foldl (fun acc g => if g.key = k then some g else acc) none

/-- `groupsMap.has(key)`. -/
def groupsMapHas (groups : List DropdownGroup) (k : String) : Bool :=
  (groupsMapFind groups k).isSome

/-- The body of the `for (const key of allKeys)` loop of `renderRows` for one
key: nothing when the bucket is missing or empty, else the header row followed
by the member option rows with the group's disabled flag OR-ed in. -/
def rowsForKey (groups : List DropdownGroup) (grouped : List (String × List DropdownItem))
    (k : String) : List RenderRow :=
  match groupedGet grouped k with
  | none => []
  | some itemsInGroup =>
    if itemsInGroup.isEmpty then []
    else
      let group := groupsMapFind groups k
      let groupDisabled := match group with | some g => g.disabled | none => false
      let lbl := match group with | some g => g.label | none => k
      RenderRow.group k lbl groupDisabled ::
        itemsInGroup.map (fun item =>
          RenderRow.option item (groupDisabled || item.disabled) (some k))

namespace Dropdown

/-- `renderRows` computed: flat option rows when no `groupBy` is supplied;
otherwise group-list keys (those with a bucket) followed by extra bucket keys,
each expanded by `rowsForKey`. -/
def renderRows (st : Dropdown) : List RenderRow :=
  let visibleItems := st.filteredItems
  match st.groupBy with
  | none => visibleItems.map (fun item => RenderRow.option item item.disabled none)
  | some gb =>
    let grouped := buildGrouped gb visibleItems
    let orderedKeys := (st.groups.map (·.key)).filter (fun k => groupedHas grouped k)
    let extraKeys := (grouped.map Prod.fst).filter (fun k => !groupsMapHas st.groups k)
    (orderedKeys ++ extraKeys).flatMap (rowsForKey st.groups grouped)

/-- `close()`: shuts the panel, disarms the scroll flag, clears the query. -/
def close (st : Dropdown) : Dropdown :=
  { st with isOpen := false, shouldScrollToSelected := false, searchQuery := "" }

/-- `select(row)`: no-op on a disabled row; multi toggles membership and
emits; single clears-or-replaces, emits, then closes.  The second component
is the value emitted on the `change` output (`none` = no emission). -/
def select (st : Dropdown) (row : OptionRowArg) : Dropdown × Option (List String) :=
  if row.disabled then (st, none)
  else
    let item := row.item
    if st.isMulti then
      let next :=
        if st.selectedSet.contains item.value then
          st.selectedSet.filter (fun w => w ≠ item.value)
        else
          st.selectedSet ++ [item.value]
      let st1 := { st with selectedSet := next }
      (st1, some st1.selectedValues)
    else
      let isAlreadySelected := st.selectedValue = some item.value
      let st1 := { st with selectedValue := if isAlreadySelected then none else some item.value }
      (st1.close, some st1.selectedValues)

end Dropdown

/-! ## The demo `App` cascading coordinator (`src/app/app.ts`) -/

/-- An area item of the demo page: belongs to the district named by
`district`. -/
structure Area where
  label : String
  value : String
  district : String
  deriving DecidableEq, Repr

/-- `areaDistrictByValue` computed: a `Map` from area value to district
(last entry with the value wins, as with `map.set`). -/
def areaDistrictByValue (areaItems : List Area) (v : String) : Option String :=
  areaItems.foldl (fun acc a => if a.value = v then some a.district else acc) none

/-- The pruning effect body: keep the previously selected area values whose
owning district is still selected; a value with no mapping falls back to
`''` (`districtByValue.get(v) ?? ''`) before the membership test. -/
def pruneAreas (areaItems : List Area) (selectedDistricts prev : List String) : List String :=
  prev.filter (fun v =>
    selectedDistricts.contains ((areaDistrictByValue areaItems v).getD ""))

/-! ## Reference constructions written from the specification's words -/

/-- Keys of a list in stable order of first appearance, skipping those already
in `seen`. -/
def firstAppearanceKeys (seen : List String) : List String → List String
  | [] => []
  | k :: rest =>
    if k ∈ seen then firstAppearanceKeys seen rest
    else k :: firstAppearanceKeys (k :: seen) rest

/-- The rows the specification prescribes for one group key with the given
member items: nothing when there are no members, else one GroupHeaderRow
(label and disabled from the matching group-list entry, or the key itself and
`false`) followed by one OptionRow per member with the group's disabled flag
OR-ed in. -/
def specKeyRows (groups : List DropdownGroup) (members : List DropdownItem) (k : String) :
    List RenderRow :=
  match members with
  | [] => []
  | _ =>
    let g? := groups.find? (fun g => decide (g.key = k))
    let gd := match g? with | some g => g.disabled | none => false
    let lbl := match g? with | some g => g.label | none => k
    RenderRow.group k lbl gd ::
      members.map (fun i => RenderRow.option i (gd || i.disabled) (some k))

/-- The grouped-mode reference construction of claim C2, read literally:
group-list keys in order, then keys produced by the key function but absent
from the group list in first-appearance order; each key contributes the rows
of `specKeyRows` for its members (the items whose key function value is
exactly that key). -/
def specRowsLiteral (groups : List DropdownGroup) (gb : DropdownItem → Option String)
    (vis : List DropdownItem) : List RenderRow :=
  let extras := (firstAppearanceKeys [] (vis.filterMap gb)).filter
    (fun k => !(groups.any (fun g => decide (g.key = k))))
  (groups.map (·.key) ++ extras).flatMap
    (fun k => specKeyRows groups (vis.filter (fun i => decide (gb i = some k))) k)

/-- The grouped-mode reference construction amended for the code's JS
truthiness test: an item whose key is the empty string is treated like a
`null`-keyed item and dropped (`keyOf` instead of the raw key function). -/
def specRows (groups : List DropdownGroup) (gb : DropdownItem → Option String)
    (vis : List DropdownItem) : List RenderRow :=
  let extras := (firstAppearanceKeys [] (vis.filterMap (keyOf gb))).filter
    (fun k => !(groups.any (fun g => decide (g.key = k))))
  (groups.map (·.key) ++ extras).flatMap
    (fun k => specKeyRows groups (vis.filter (fun i => decide (keyOf gb i = some k))) k)

/-- The pruning reference of claim C8, read literally: keep a previously
selected area value exactly when it has a district mapping and that district
is currently selected (no mapping → pruned). -/
def specPrune (areaItems : List Area) (selectedDistricts prev : List String) : List String :=
  prev.filter (fun v =>
    match areaDistrictByValue areaItems v with
    | some d => selectedDistricts.contains d
    | none => false)

/-! ## Concrete inputs for witnesses and counterexamples -/

def itemA : DropdownItem := ⟨"A", "a", false⟩

def itemB : DropdownItem := ⟨"B", "b", false⟩

def itemC : DropdownItem := ⟨"C", "c", false⟩

/-- A closed base state: three enabled items, single mode, nothing selected. -/
def baseState : Dropdown :=
  { items := [itemA, itemB, itemC]
    placeholder := "Выберите элемент"
    mode := .single
    groups := []
    groupBy := none
    searchable := false
    isOpen := false
    selectedValue := none
    selectedSet := []
    searchQuery := ""
    shouldScrollToSelected := false }

/-- A group-key function that sends every item to the empty-string key. -/
def gbEmptyKey : DropdownItem → Option String := fun _ => some ""

/-- Grouping by the lowercased label. -/
def gbLowerLabel : DropdownItem → Option String := fun i => some (jsToLower i.label)

def rowA : OptionRowArg := ⟨itemA, false⟩

def rowB : OptionRowArg := ⟨itemB, false⟩

/-- Single mode with `a` already selected. -/
def stSingleA : Dropdown := { baseState with selectedValue := some "a" }

/-- Multi mode, empty selection, panel open. -/
def stMulti : Dropdown := { baseState with mode := .multi, isOpen := true }

/-- Multi mode with `a` and `c` selected. -/
def stMultiAC : Dropdown :=
  { baseState with
      mode := .multi
      selectedSet := ["a", "c"] }

/-- A searchable state over labels `abc`, `xyz`, `ABCD` with raw query " BC ". -/
def stSearch : Dropdown :=
  { baseState with
      searchable := true
      searchQuery := " BC "
      items := [⟨"abc", "1", false⟩, ⟨"xyz", "2", false⟩, ⟨"ABCD", "3", false⟩] }

/-- Grouped mode where every item's key is the empty string (claim C2). -/
def stEmptyKeyA : Dropdown :=
  { baseState with
      items := [itemA]
      groupBy := some gbEmptyKey }

/-- Grouped mode where every item's key is the empty string (claim C7). -/
def stEmptyKeyB : Dropdown :=
  { baseState with
      items := [itemB]
      groupBy := some gbEmptyKey }

/-- Single mode holding the empty string as the selected value. -/
def stHeldEmpty : Dropdown :=
  { baseState with
      items := []
      selectedValue := some "" }

/-- Grouped demo state: North enabled, South disabled, plus an item whose
key `q` has no group entry. -/
def stGrouped : Dropdown :=
  { baseState with
      items := [⟨"N", "1", false⟩, ⟨"S", "2", false⟩, ⟨"S", "3", true⟩, ⟨"Q", "4", false⟩]
      groups := [⟨"n", "North", false⟩, ⟨"s", "South", true⟩]
      groupBy := some gbLowerLabel }

/-- Multi mode with all three items selected. -/
def stMultiAll : Dropdown :=
  { baseState with
      mode := .multi
      selectedSet := ["a", "b", "c"] }

/-- Demo areas for the cascading coordinator witnesses. -/
def demoAreas : List Area := [⟨"a1", "v1", "d1"⟩, ⟨"a2", "v2", "d2"⟩]

/-! ## Helper lemmas -/

theorem isMulti_false_of_single {st : Dropdown} (h : st.mode = .single) :
    st.isMulti = false := by
  simp [Dropdown.isMulti, h]

theorem isMulti_true_of_multi {st : Dropdown} (h : st.mode = .multi) :
    st.isMulti = true := by
  simp [Dropdown.isMulti, h]

theorem contains_eq_of_mem_iff {l₁ l₂ : List String} (h : ∀ x, x ∈ l₁ ↔ x ∈ l₂)
    (x : String) : l₁.contains x = l₂.contains x := by
  by_cases hx : x ∈ l₂
  · have h1 : l₁.contains x = true := List.elem_iff.mpr ((h x).mpr hx)
    have h2 : l₂.contains x = true := List.elem_iff.mpr hx
    rw [h1, h2]
  · have h1 : l₁.contains x = false := by
      cases hc : l₁.contains x
      · rfl
      · exact absurd ((h x).mp (List.elem_iff.mp hc)) hx
    have h2 : l₂.contains x = false := by
      cases hc : l₂.contains x
      · rfl
      · exact absurd (List.elem_iff.mp hc) hx
    rw [h1, h2]

/-! ## Claim C5 -/

/-- Claim C5: invoking `select` on a disabled row is a silent no-op — the
state (selection, open flag, search query, all of it) is returned unchanged
and nothing is emitted on the `change` output. -/
theorem C5_disabled_select_noop (st : Dropdown) (row : OptionRowArg)
    (h : row.disabled = true) : st.select row = (st, none) := by
  simp [Dropdown.select, h]

/-- Witness for C5: selecting a disabled row for item `A` in the base state
changes nothing and emits nothing. -/
theorem C5_disabled_select_noop_witness :
    (OptionRowArg.mk itemA true).disabled = true
    ∧ baseState.select ⟨itemA, true⟩ = (baseState, none) :=
  ⟨rfl, C5_disabled_select_noop baseState ⟨itemA, true⟩ rfl⟩

/-! ## Claim C3 -/

/-- Claim C3: in single mode, selecting an enabled row clears the selection
when the row's value is the currently selected one and replaces it otherwise;
in both cases the new selection is emitted and the dropdown is closed. -/
theorem C3_single_select_toggle (st : Dropdown) (row : OptionRowArg)
    (hm : st.mode = .single) (hd : row.disabled = false) :
    (st.selectedValue = some row.item.value → (st.select row).1.selectedValue = none)
    ∧ (st.selectedValue ≠ some row.item.value →
        (st.select row).1.selectedValue = some row.item.value)
    ∧ (st.select row).2 = some ((st.select row).1.selectedValues)
    ∧ (st.select row).1.isOpen = false := by
  by_cases hsel : st.selectedValue = some row.item.value <;>
    simp [Dropdown.select, hd, hm, hsel, Dropdown.close, Dropdown.selectedValues,
      Dropdown.isMulti]

/-- Witness for C3: selecting `a` in an empty single-mode state replaces the
selection, emits `["a"]` and closes. -/
theorem C3_single_select_toggle_witness :
    baseState.mode = .single ∧ rowA.disabled = false
    ∧ (baseState.selectedValue ≠ some rowA.item.value →
        (baseState.select rowA).1.selectedValue = some rowA.item.value)
    ∧ (baseState.select rowA).2 = some ((baseState.select rowA).1.selectedValues)
    ∧ (baseState.select rowA).1.isOpen = false := by
  have h := C3_single_select_toggle baseState rowA rfl rfl
  exact ⟨rfl, rfl, h.2.1, h.2.2.1, h.2.2.2⟩

/-! ## Claim C4 -/

/-- Claim C4 (amended): in single mode, toggling an enabled row twice leaves
the selection empty when the row's value was not selected at the start, and
restores it when it was; in multi mode each toggle flips membership of the
value without closing the dropdown, and two toggles restore the original
membership and the observable `selectedValues`. -/
theorem C4_double_toggle (st : Dropdown) (row : OptionRowArg) (hd : row.disabled = false) :
    (st.mode = .single →
      (st.selectedValue ≠ some row.item.value →
        ((st.select row).1.select row).1.selectedValue = none)
      ∧ (st.selectedValue = some row.item.value →
        ((st.select row).1.select row).1.selectedValue = st.selectedValue))
    ∧ (st.mode = .multi →
      (st.select row).1.isOpen = st.isOpen
      ∧ ((row.item.value ∈ (st.select row).1.selectedSet) ↔ row.item.value ∉ st.selectedSet)
      ∧ (∀ w, w ≠ row.item.value →
          ((w ∈ (st.select row).1.selectedSet) ↔ w ∈ st.selectedSet))
      ∧ (∀ w, (w ∈ ((st.select row).1.select row).1.selectedSet) ↔ w ∈ st.selectedSet)
      ∧ ((st.select row).1.select row).1.selectedValues = st.selectedValues) := by
  constructor
  · intro hm
    constructor
    · intro hsel
      by_cases hv : st.selectedValue = some row.item.value
      · exact absurd hv hsel
      · simp [Dropdown.select, hd, hm, hv, Dropdown.close, Dropdown.isMulti]
    · intro hsel
      simp [Dropdown.select, hd, hm, hsel, Dropdown.close, Dropdown.isMulti]
  · intro hm
    by_cases hc : row.item.value ∈ st.selectedSet
    · have h1 : (st.select row).1 =
          { st with selectedSet := st.selectedSet.filter (fun w => w ≠ row.item.value) } := by
        simp [Dropdown.select, hd, hm, hc, Dropdown.isMulti]
      have hnotmem : row.item.value ∉
          st.selectedSet.filter (fun w => w ≠ row.item.value) := by
        intro hmem
        simpa using (List.mem_filter.mp hmem).2
      have h2 : ((st.select row).1.select row).1 =
          { st with selectedSet :=
              st.selectedSet.filter (fun w => w ≠ row.item.value) ++ [row.item.value] } := by
        rw [h1]
        simp [Dropdown.select, hd, hm, hnotmem, Dropdown.isMulti]
      have hmem2 : ∀ w,
          (w ∈ st.selectedSet.filter (fun w => w ≠ row.item.value) ++ [row.item.value])
            ↔ w ∈ st.selectedSet := by
        intro w
        by_cases hw : w = row.item.value
        · subst hw
          simp [hc]
        · simp [List.mem_append, List.mem_filter, hw]
      refine ⟨by rw [h1], ?_, ?_, ?_, ?_⟩
      · rw [h1]
        simp [List.mem_filter, hc]
      · intro w hw
        rw [h1]
        simp [List.mem_filter, hw]
      · intro w
        rw [h2]
        exact hmem2 w
      · rw [h2]
        simp only [Dropdown.selectedValues, Dropdown.isMulti, hm, if_true]
        refine congrArg (List.map _) (List.filter_congr ?_)
        intro i _
        exact contains_eq_of_mem_iff hmem2 i.value
    · have h1 : (st.select row).1 =
          { st with selectedSet := st.selectedSet ++ [row.item.value] } := by
        simp [Dropdown.select, hd, hm, hc, Dropdown.isMulti]
      have hmem1 : row.item.value ∈ st.selectedSet ++ [row.item.value] := by simp
      have h2 : ((st.select row).1.select row).1 =
          { st with selectedSet :=
              (st.selectedSet ++ [row.item.value]).filter (fun w => w ≠ row.item.value) } := by
        rw [h1]
        simp [Dropdown.select, hd, hm, hmem1, Dropdown.isMulti]
      have hmem2 : ∀ w,
          (w ∈ (st.selectedSet ++ [row.item.value]).filter (fun w => w ≠ row.item.value))
            ↔ w ∈ st.selectedSet := by
        intro w
        by_cases hw : w = row.item.value
        · subst hw
          simp [List.mem_filter, hc]
        · simp [List.mem_filter, List.mem_append, hw]
      refine ⟨by rw [h1], ?_, ?_, ?_, ?_⟩
      · rw [h1]
        simp [hc]
      · intro w hw
        rw [h1]
        simp [List.mem_append, hw]
      · intro w
        rw [h2]
        exact hmem2 w
      · rw [h2]
        simp only [Dropdown.selectedValues, Dropdown.isMulti, hm, if_true]
        refine congrArg (List.map _) (List.filter_congr ?_)
        intro i _
        exact contains_eq_of_mem_iff hmem2 i.value

/-- Witness for C4: toggling `b` twice in the multi-mode state with `a`,`c`
selected restores the observable selection. -/
theorem C4_double_toggle_witness :
    rowB.disabled = false ∧ stMultiAC.mode = .multi
    ∧ ((stMultiAC.select rowB).1.select rowB).1.selectedValues = stMultiAC.selectedValues := by
  have h := C4_double_toggle stMultiAC rowB rfl
  exact ⟨rfl, rfl, (h.2 rfl).2.2.2.2⟩

/-- Counterexample to C4 as stated: in single mode with `a` already selected,
selecting `a` twice does not leave the selection empty (the first click
clears, the second selects again). -/
theorem C4_double_toggle_cex :
    stSingleA.mode = .single ∧ rowA.disabled = false
    ∧ stSingleA.selectedValue = some rowA.item.value
    ∧ ((stSingleA.select rowA).1.select rowA).1.selectedValues ≠ [] := by
  refine ⟨rfl, rfl, rfl, by decide⟩

/-! ## Claim C6 -/

/-- Claim C6: the filtered item sequence is the item list unchanged when
`searchable` is off or the trimmed, lowercased query is empty, and otherwise
exactly the items whose lowercased label contains that query as a substring,
in input order. -/
theorem C6_filteredItems (st : Dropdown) :
    ((st.searchable = false ∨ jsToLower (jsTrim st.searchQuery) = "") → st.filteredItems = st.items)
    ∧ (st.searchable = true → jsToLower (jsTrim st.searchQuery) ≠ "" →
        st.filteredItems = st.items.filter (fun i =>
          decide ((jsToLower (jsTrim st.searchQuery)).toList <:+: (jsToLower i.label).toList))) := by
  constructor
  · rintro (h | h) <;> simp [Dropdown.filteredItems, Dropdown.normalizedQuery, h]
  · intro hs hq
    simp [Dropdown.filteredItems, Dropdown.normalizedQuery, Dropdown.strIncludes, hs, hq]

/-- Witness for C6: the base state filters nothing; the spec's scenario state
(query " BC " over labels `abc`, `xyz`, `ABCD`) keeps exactly `abc` and
`ABCD`. -/
theorem C6_filteredItems_witness :
    baseState.filteredItems = baseState.items
    ∧ stSearch.searchable = true
    ∧ jsToLower (jsTrim stSearch.searchQuery) ≠ ""
    ∧ stSearch.filteredItems = stSearch.items.filter (fun i =>
        decide ((jsToLower (jsTrim stSearch.searchQuery)).toList <:+: (jsToLower i.label).toList))
    ∧ stSearch.filteredItems = [⟨"abc", "1", false⟩, ⟨"ABCD", "3", false⟩] :=
  ⟨(C6_filteredItems baseState).1 (Or.inl rfl), rfl, by decide,
    (C6_filteredItems stSearch).2 rfl (by decide), by decide⟩

/-! ## Claim C9 -/

/-- Claim C9: `displayValue` is the placeholder when no selected item exists,
the sole selected item's label in single mode, the comma-joined labels when
at most two items are selected in multi mode, and the truncated
`"A, B и еще N"` summary when more than two are selected. -/
theorem C9_displayValue (st : Dropdown) :
    (st.selectedItems = [] → st.displayValue = st.placeholder)
    ∧ (st.mode = .single → ∀ i, st.selectedItems = [i] → st.displayValue = i.label)
    ∧ (st.mode = .multi → ∀ sel, st.selectedItems = sel → sel ≠ [] → sel.length ≤ 2 →
        st.displayValue = String.intercalate ", " (sel.map (·.label)))
    ∧ (st.mode = .multi → ∀ a b rest, st.selectedItems = a :: b :: rest → rest ≠ [] →
        st.displayValue = a.label ++ ", " ++ b.label ++ " и еще " ++ toString rest.length) := by
  refine ⟨?_, ?_, ?_, ?_⟩
  · intro h
    simp [Dropdown.displayValue, h]
  · intro hm i h
    simp [Dropdown.displayValue, h, Dropdown.isMulti, hm]
  · intro hm sel h hne hlen
    have hlz : sel.length ≠ 0 := fun h0 => hne (List.length_eq_zero.mp h0)
    simp [Dropdown.displayValue, h, Dropdown.isMulti, hm, hlz, hlen]
  · intro hm a b rest h hne
    have hgt : ¬ ((a :: b :: rest).length ≤ 2) := by
      simp only [List.length_cons]
      have : rest.length ≠ 0 := fun h0 => hne (List.length_eq_zero.mp h0)
      omega
    have hsub : (a :: b :: rest).length - 2 = rest.length := by
      simp only [List.length_cons]
      omega
    simp [Dropdown.displayValue, h, Dropdown.isMulti, hm, hgt, hsub, hne]

/-- Witness for C9: with `a`, `b`, `c` all selected in multi mode the summary
truncates to `"A, B и еще 1"`. -/
theorem C9_displayValue_witness :
    stMultiAll.mode = .multi
    ∧ stMultiAll.selectedItems = [itemA, itemB, itemC]
    ∧ ([itemC] : List DropdownItem) ≠ []
    ∧ stMultiAll.displayValue
        = itemA.label ++ ", " ++ itemB.label ++ " и еще " ++ toString ([itemC] : List DropdownItem).length :=
  ⟨rfl, by decide, by decide,
    (C9_displayValue stMultiAll).2.2.2 rfl itemA itemB [itemC] (by decide) (by decide)⟩

/-! ## Claim C10 -/

/-- Claim C10 (amended): in multi mode `selectedValues` never contains a
value absent from the item list; in single mode a held *non-empty* selected
value is returned as `[v]` even when absent from the item list (an
empty-string held value yields `[]`), and `displayValue` falls back to the
placeholder when no item matches the held value. -/
theorem C10_stale_selection (st : Dropdown) :
    (st.mode = .multi → ∀ v ∈ st.selectedValues, ∃ i ∈ st.items, i.value = v)
    ∧ (st.mode = .single → ∀ v, st.selectedValue = some v → v ≠ "" →
        (∀ i ∈ st.items, i.value ≠ v) → st.selectedValues = [v])
    ∧ (st.mode = .single → ∀ v, st.selectedValue = some v →
        (∀ i ∈ st.items, i.value ≠ v) → st.displayValue = st.placeholder) := by
  refine ⟨?_, ?_, ?_⟩
  · intro hm v hv
    simp only [Dropdown.selectedValues, Dropdown.isMulti, hm, if_true] at hv
    obtain ⟨i, hi, hiv⟩ := List.mem_map.mp hv
    exact ⟨i, (List.mem_filter.mp hi).1, hiv⟩
  · intro hm v hv hne _
    simp [Dropdown.selectedValues, Dropdown.isMulti, hm, hv, hne]
  · intro hm v hv habs
    have hsel : st.selectedItems = [] := by
      apply List.filter_eq_nil_iff.mpr
      intro i hi
      simp only [Dropdown.selectedValues, Dropdown.isMulti, hm, hv]
      by_cases hz : v = ""
      · simp [hz]
      · simp only [hz, if_false]
        simp [habs i hi]
    simp [Dropdown.displayValue, hsel]

/-- Witness for C10: in single mode holding stale value `zz` (absent from the
items), `selectedValues` still reports `["zz"]` while `displayValue` shows
the placeholder; in multi mode a stale member of `selectedSet` never shows up
in `selectedValues`. -/
theorem C10_stale_selection_witness :
    (∀ v ∈ stMultiAC.selectedValues, ∃ i ∈ stMultiAC.items, i.value = v)
    ∧ ({ baseState with selectedValue := some "zz" } : Dropdown).selectedValues = ["zz"]
    ∧ ({ baseState with selectedValue := some "zz" } : Dropdown).displayValue
        = baseState.placeholder := by
  have h1 := (C10_stale_selection stMultiAC).1 rfl
  have h2 := (C10_stale_selection { baseState with selectedValue := some "zz" }).2.1 rfl
    "zz" rfl (by decide) (by decide)
  have h3 := (C10_stale_selection { baseState with selectedValue := some "zz" }).2.2 rfl
    "zz" rfl (by decide)
  exact ⟨h1, h2, h3⟩

/-- Counterexample to C10 as stated: with the empty string held as the single
selected value (reachable through the `value` input effect) and absent from
the item list, `selectedValues` is `[]`, not `[""]`. -/
theorem C10_stale_selection_cex :
    stHeldEmpty.mode = .single
    ∧ stHeldEmpty.selectedValue = some ""
    ∧ (∀ i ∈ stHeldEmpty.items, i.value ≠ "")
    ∧ stHeldEmpty.selectedValues ≠ [""] := by
  refine ⟨rfl, rfl, by decide, by decide⟩

/-! ## Claim C8 -/

/-- Claim C8 (amended): the pruning pass keeps exactly the previously
selected area values whose owning district is still selected, provided the
empty string is not itself a selected district value (the code falls back to
`''` for a value with no district mapping, so such areas survive exactly when
`''` is selected); pruning is idempotent unconditionally. -/
theorem C8_prune_idempotent (areaItems : List Area) (sd prev : List String) :
    pruneAreas areaItems sd (pruneAreas areaItems sd prev) = pruneAreas areaItems sd prev
    ∧ ((¬ "" ∈ sd) → pruneAreas areaItems sd prev = specPrune areaItems sd prev) := by
  constructor
  · simp only [pruneAreas, List.filter_filter]
    apply List.filter_congr
    intro v _
    exact Bool.and_self _
  · intro h
    have hc : sd.contains "" = false := by
      cases hcc : sd.contains ""
      · rfl
      · exact absurd (List.elem_iff.mp hcc) h
    apply List.filter_congr
    intro v _
    cases hd : areaDistrictByValue areaItems v
    · simpa [hd] using hc
    · simp [hd]

/-- Witness for C8: with districts `d1` selected out of the demo mapping,
pruning `["v1", "v2", "zz"]` keeps exactly `["v1"]`, a second run changes
nothing, and the result matches the spec-side restriction. -/
theorem C8_prune_idempotent_witness :
    pruneAreas demoAreas ["d1"] (pruneAreas demoAreas ["d1"] ["v1", "v2", "zz"])
        = pruneAreas demoAreas ["d1"] ["v1", "v2", "zz"]
    ∧ (¬ "" ∈ (["d1"] : List String))
    ∧ pruneAreas demoAreas ["d1"] ["v1", "v2", "zz"]
        = specPrune demoAreas ["d1"] ["v1", "v2", "zz"]
    ∧ pruneAreas demoAreas ["d1"] ["v1", "v2", "zz"] = ["v1"] :=
  ⟨(C8_prune_idempotent demoAreas ["d1"] ["v1", "v2", "zz"]).1, by decide,
    (C8_prune_idempotent demoAreas ["d1"] ["v1", "v2", "zz"]).2 (by decide), by decide⟩

/-- Counterexample to C8 as stated: when the empty string is a selected
district value, an area value with no district mapping is *not* pruned,
contradicting the claim's "an area whose value has no district mapping is
also pruned". -/
theorem C8_prune_idempotent_cex :
    pruneAreas [] [""] ["x"] ≠ specPrune [] [""] ["x"]
    ∧ pruneAreas [] [""] ["x"] = ["x"] := by
  refine ⟨by decide, by decide⟩

/-! ## Grouping machinery: the `grouped` map characterized by filters -/

theorem groupedGet_insertGrouped_self (m : List (String × List DropdownItem)) (k : String)
    (item : DropdownItem) :
    groupedGet (insertGrouped m k item) k = some (((groupedGet m k).getD []) ++ [item]) := by
  induction m with
  | nil => simp [insertGrouped, groupedGet]
  | cons hd tl ih =>
    obtain ⟨k', l⟩ := hd
    by_cases hk : k' = k
    · subst hk
      simp [insertGrouped, groupedGet]
    · simp [insertGrouped, groupedGet, hk, ih]

theorem groupedGet_insertGrouped_other (m : List (String × List DropdownItem)) (k k₂ : String)
    (item : DropdownItem) (h : k₂ ≠ k) :
    groupedGet (insertGrouped m k item) k₂ = groupedGet m k₂ := by
  induction m with
  | nil => simp [insertGrouped, groupedGet, Ne.symm h]
  | cons hd tl ih =>
    obtain ⟨k', l⟩ := hd
    by_cases hk : k' = k
    · subst hk
      simp [insertGrouped, groupedGet, Ne.symm h]
    · simp [insertGrouped, groupedGet, hk, ih]

theorem groupedGet_isSome_iff_mem_fst (m : List (String × List DropdownItem)) (k : String) :
    (groupedGet m k).isSome = true ↔ k ∈ m.map Prod.fst := by
  induction m with
  | nil => simp [groupedGet]
  | cons hd tl ih =>
    obtain ⟨k', l⟩ := hd
    by_cases hk : k' = k
    · subst hk
      simp [groupedGet]
    · simp [groupedGet, hk, ih, Ne.symm hk]

theorem map_fst_insertGrouped (m : List (String × List DropdownItem)) (k : String)
    (item : DropdownItem) :
    (insertGrouped m k item).map Prod.fst =
      if (groupedGet m k).isSome then m.map Prod.fst else m.map Prod.fst ++ [k] := by
  induction m with
  | nil => simp [insertGrouped, groupedGet]
  | cons hd tl ih =>
    obtain ⟨k', l⟩ := hd
    by_cases hk : k' = k
    · subst hk
      simp [insertGrouped, groupedGet]
    · by_cases hs : (groupedGet tl k).isSome
      · simp [insertGrouped, groupedGet, hk, ih, hs]
      · simp [insertGrouped, groupedGet, hk, ih, hs]

theorem firstAppearanceKeys_congr {s₁ s₂ : List String} (h : ∀ x, x ∈ s₁ ↔ x ∈ s₂) :
    ∀ l, firstAppearanceKeys s₁ l = firstAppearanceKeys s₂ l := by
  intro l
  induction l generalizing s₁ s₂ with
  | nil => rfl
  | cons k rest ih =>
    by_cases hk : k ∈ s₁
    · rw [firstAppearanceKeys, firstAppearanceKeys, if_pos hk, if_pos ((h k).mp hk)]
      exact ih h
    · have hk2 : k ∉ s₂ := fun hh => hk ((h k).mpr hh)
      rw [firstAppearanceKeys, firstAppearanceKeys, if_neg hk, if_neg hk2]
      refine congrArg _ (ih ?_)
      intro x
      constructor
      · intro hx
        rcases List.mem_cons.mp hx with hx | hx
        · exact hx ▸ List.mem_cons_self _ _
        · exact List.mem_cons_of_mem _ ((h x).mp hx)
      · intro hx
        rcases List.mem_cons.mp hx with hx | hx
        · exact hx ▸ List.mem_cons_self _ _
        · exact List.mem_cons_of_mem _ ((h x).mpr hx)

theorem groupedGet_foldl (gb : DropdownItem → Option String) (vis : List DropdownItem) :
    ∀ (m : List (String × List DropdownItem)) (k : String),
      groupedGet (vis.foldl (fun m item =>
        match keyOf gb item with
        | none => m
        | some k => insertGrouped m k item) m) k =
      match groupedGet m k with
      | some l => some (l ++ vis.filter (fun i => decide (keyOf gb i = some k)))
      | none =>
        match vis.filter (fun i => decide (keyOf gb i = some k)) with
        | [] => none
        | members => some members := by
  induction vis with
  | nil =>
    intro m k
    cases hg : groupedGet m k <;> simp [hg]
  | cons i rest ih =>
    intro m k
    rw [List.foldl_cons, ih]
    cases hki : keyOf gb i with
    | none =>
      simp only [hki, List.filter_cons, decide_eq_true_eq]
      have hne : ¬ ((none : Option String) = some k) := by simp
      simp [hne]
    | some k' =>
      by_cases hkk : k' = k
      · subst hkk
        have hpred : decide (keyOf gb i = some k') = true := by simp [hki]
        simp only [hki, List.filter_cons, hpred, if_true]
        rw [groupedGet_insertGrouped_self]
        cases hg : groupedGet m k' with
        | none => simp [hg]
        | some l => simp [hg]
      · have hpred : decide (keyOf gb i = some k) = false := by simp [hki, hkk]
        simp only [List.filter_cons, hpred, Bool.false_eq_true, if_false]
        rw [groupedGet_insertGrouped_other _ _ _ _ (Ne.symm hkk)]

theorem map_fst_foldl (gb : DropdownItem → Option String) (vis : List DropdownItem) :
    ∀ (m : List (String × List DropdownItem)),
      (vis.foldl (fun m item =>
        match keyOf gb item with
        | none => m
        | some k => insertGrouped m k item) m).map Prod.fst =
      m.map Prod.fst ++ firstAppearanceKeys (m.map Prod.fst) (vis.filterMap (keyOf gb)) := by
  induction vis with
  | nil =>
    intro m
    simp [firstAppearanceKeys]
  | cons i rest ih =>
    intro m
    rw [List.foldl_cons, ih]
    cases hki : keyOf gb i with
    | none => simp [hki, List.filterMap_cons]
    | some k' =>
      simp only [hki, List.filterMap_cons]
      by_cases hmem : k' ∈ m.map Prod.fst
      · have hs : (groupedGet m k').isSome = true :=
          (groupedGet_isSome_iff_mem_fst m k').mpr hmem
        rw [map_fst_insertGrouped, if_pos hs, firstAppearanceKeys, if_pos hmem]
      · have hs : ¬ (groupedGet m k').isSome = true :=
          fun hh => hmem ((groupedGet_isSome_iff_mem_fst m k').mp hh)
        rw [map_fst_insertGrouped, if_neg hs, firstAppearanceKeys, if_neg hmem]
        have hcongr := @firstAppearanceKeys_congr
          (m.map Prod.fst ++ [k']) (k' :: m.map Prod.fst)
          (fun x => by simp [List.mem_append, or_comm]) (List.filterMap (keyOf gb) rest)
        rw [hcongr]
        simp [List.append_assoc]

/-- The `grouped` map of `renderRows`, characterized: the bucket of `k` is
exactly the visible items whose surviving key is `k`, present iff nonempty. -/
theorem groupedGet_buildGrouped (gb : DropdownItem → Option String) (vis : List DropdownItem)
    (k : String) :
    groupedGet (buildGrouped gb vis) k =
      match vis.filter (fun i => decide (keyOf gb i = some k)) with
      | [] => none
      | members => some members := by
  have h := groupedGet_foldl gb vis [] k
  simpa [buildGrouped, groupedGet] using h

theorem map_fst_buildGrouped (gb : DropdownItem → Option String) (vis : List DropdownItem) :
    (buildGrouped gb vis).map Prod.fst
      = firstAppearanceKeys [] (vis.filterMap (keyOf gb)) := by
  have h := map_fst_foldl gb vis []
  simpa [buildGrouped] using h

theorem foldl_groupsMap_no_match (k : String) :
    ∀ (rest : List DropdownGroup) (acc : Option DropdownGroup),
      (∀ g ∈ rest, g.key ≠ k) →
      rest.foldl (fun acc g => if g.key = k then some g else acc) acc = acc := by
  intro rest
  induction rest with
  | nil => intro acc _; rfl
  | cons g rest ih =>
    intro acc h
    rw [List.foldl_cons, if_neg (h g (List.mem_cons_self _ _))]
    exact ih acc (fun g' hg' => h g' (List.mem_cons_of_mem _ hg'))

theorem groupsMapHas_eq_any (groups : List DropdownGroup) (k : String) :
    groupsMapHas groups k = groups.any (fun g => decide (g.key = k)) := by
  suffices h : ∀ acc : Option DropdownGroup,
      (groups.foldl (fun acc g => if g.key = k then some g else acc) acc).isSome
        = (acc.isSome || groups.any (fun g => decide (g.key = k))) by
    simpa [groupsMapHas, groupsMapFind] using h none
  induction groups with
  | nil => intro acc; simp
  | cons g rest ih =>
    intro acc
    rw [List.foldl_cons, ih]
    by_cases hg : g.key = k
    · simp [hg, Bool.or_comm, Bool.or_left_comm]
    · simp [hg]

/-- Under unique group keys, the last-wins `Map` lookup agrees with the
first-match search of the specification. -/
theorem groupsMapFind_eq_of_mem (groups : List DropdownGroup) (g : DropdownGroup) (k : String)
    (hnd : (groups.map (·.key)).Nodup) (hg : g ∈ groups) (hk : g.key = k) :
    groupsMapFind groups k = some g := by
  induction groups with
  | nil => cases hg
  | cons g' rest ih =>
    have hnd' : (rest.map (·.key)).Nodup := (List.nodup_cons.mp (by simpa using hnd)).2
    have hhead : g'.key ∉ rest.map (·.key) := (List.nodup_cons.mp (by simpa using hnd)).1
    rcases List.mem_cons.mp hg with hgg | hgg
    · subst hgg
      have hrest : ∀ g₂ ∈ rest, g₂.key ≠ k := by
        intro g₂ hg₂ he
        exact hhead (hk ▸ he ▸ List.mem_map_of_mem (·.key) hg₂)
      rw [groupsMapFind, List.foldl_cons, if_pos hk]
      exact foldl_groupsMap_no_match k rest _ hrest
    · have hne : g'.key ≠ k := by
        intro he
        exact hhead (he ▸ hk ▸ List.mem_map_of_mem (·.key) hgg)
      rw [groupsMapFind, List.foldl_cons, if_neg hne]
      exact ih hnd' hgg

theorem groupsMapFind_eq_find (groups : List DropdownGroup) (k : String)
    (hnd : (groups.map (·.key)).Nodup) :
    groupsMapFind groups k = groups.find? (fun g => decide (g.key = k)) := by
  induction groups with
  | nil => rfl
  | cons g rest ih =>
    have hnd' : (rest.map (·.key)).Nodup := (List.nodup_cons.mp (by simpa using hnd)).2
    have hhead : g.key ∉ rest.map (·.key) := (List.nodup_cons.mp (by simpa using hnd)).1
    by_cases hg : g.key = k
    · have hrest : ∀ g₂ ∈ rest, g₂.key ≠ k := by
        intro g₂ hg₂ he
        exact hhead (hg ▸ he ▸ List.mem_map_of_mem (·.key) hg₂)
      rw [groupsMapFind, List.foldl_cons, if_pos hg,
        foldl_groupsMap_no_match k rest _ hrest, List.find?_cons_of_pos _ (by simp [hg])]
    · rw [groupsMapFind, List.foldl_cons, if_neg hg,
        List.find?_cons_of_neg _ (by simp [hg])]
      exact ih hnd'

/-- Under unique group keys, the loop body of `renderRows` for one key
produces exactly the specification's rows for that key's members. -/
theorem rowsForKey_eq_specKeyRows (groups : List DropdownGroup)
    (gb : DropdownItem → Option String) (vis : List DropdownItem) (k : String)
    (hnd : (groups.map (·.key)).Nodup) :
    rowsForKey groups (buildGrouped gb vis) k
      = specKeyRows groups (vis.filter (fun i => decide (keyOf gb i = some k))) k := by
  cases hfil : vis.filter (fun i => decide (keyOf gb i = some k)) with
  | nil =>
    rw [rowsForKey, groupedGet_buildGrouped, hfil]
    simp [specKeyRows]
  | cons a l =>
    rw [rowsForKey, groupedGet_buildGrouped, hfil, groupsMapFind_eq_find groups k hnd]
    simp [specKeyRows]

theorem flatMap_congr_fun {α β : Type} {f g : α → List β} (l : List α)
    (h : ∀ a ∈ l, f a = g a) : l.flatMap f = l.flatMap g := by
  induction l with
  | nil => rfl
  | cons a rest ih =>
    rw [List.flatMap_cons, List.flatMap_cons, h a (List.mem_cons_self _ _),
      ih (fun b hb => h b (List.mem_cons_of_mem _ hb))]

theorem flatMap_filter_of_nil {α β : Type} (keys : List α) (p : α → Bool) (g : α → List β)
    (h : ∀ k ∈ keys, p k = false → g k = []) :
    (keys.filter p).flatMap g = keys.flatMap g := by
  induction keys with
  | nil => rfl
  | cons a rest ih =>
    have ih' := ih (fun k hk hp => h k (List.mem_cons_of_mem _ hk) hp)
    cases hp : p a
    · rw [List.filter_cons, hp]
      simp only [Bool.false_eq_true, if_false]
      rw [List.flatMap_cons, h a (List.mem_cons_self _ _) hp, ih', List.nil_append]
    · rw [List.filter_cons, hp]
      simp only [if_true]
      rw [List.flatMap_cons, List.flatMap_cons, ih']

/-! ## Claim C2 -/

/-- Claim C2 (amended): with unique group-list keys, grouped `renderRows`
equals the specification's reference construction, amended only in that an
item whose key function yields the empty string is treated like a
`null`-keyed item and dropped (`keyOf`): group-list keys in order, then
first-appearance extra keys; keys with no members emit nothing; each
remaining key emits one header (metadata from the matching entry or the key
itself) followed by its member option rows in filtered order. -/
theorem C2_renderRows_grouped (st : Dropdown) (gb : DropdownItem → Option String)
    (hgb : st.groupBy = some gb) (hnd : (st.groups.map (·.key)).Nodup) :
    st.renderRows = specRows st.groups gb st.filteredItems := by
  have hfun : ∀ k, rowsForKey st.groups (buildGrouped gb st.filteredItems) k
      = specKeyRows st.groups
          (st.filteredItems.filter (fun i => decide (keyOf gb i = some k))) k :=
    fun k => rowsForKey_eq_specKeyRows st.groups gb st.filteredItems k hnd
  simp only [Dropdown.renderRows, hgb, specRows]
  rw [List.flatMap_append, List.flatMap_append]
  congr 1
  · calc ((st.groups.map (·.key)).filter
          (fun k => groupedHas (buildGrouped gb st.filteredItems) k)).flatMap
            (rowsForKey st.groups (buildGrouped gb st.filteredItems))
        = ((st.groups.map (·.key)).filter
            (fun k => groupedHas (buildGrouped gb st.filteredItems) k)).flatMap
              (fun k => specKeyRows st.groups
                (st.filteredItems.filter (fun i => decide (keyOf gb i = some k))) k) :=
          flatMap_congr_fun _ (fun k _ => hfun k)
      _ = (st.groups.map (·.key)).flatMap
            (fun k => specKeyRows st.groups
              (st.filteredItems.filter (fun i => decide (keyOf gb i = some k))) k) := by
          apply flatMap_filter_of_nil
          intro k _ hp
          have hnone : groupedGet (buildGrouped gb st.filteredItems) k = none := by
            have hp' : (groupedGet (buildGrouped gb st.filteredItems) k).isSome = false := hp
            exact Option.not_isSome_iff_eq_none.mp (by simp [hp'])
          have hfil : st.filteredItems.filter (fun i => decide (keyOf gb i = some k)) = [] := by
            cases hcase : st.filteredItems.filter (fun i => decide (keyOf gb i = some k)) with
            | nil => rfl
            | cons a l =>
              rw [groupedGet_buildGrouped, hcase] at hnone
              exact absurd hnone (by simp)
          rw [hfil]
          rfl
  · have hkeys : (((buildGrouped gb st.filteredItems).map Prod.fst).filter
        (fun k => !groupsMapHas st.groups k))
        = ((firstAppearanceKeys [] (st.filteredItems.filterMap (keyOf gb))).filter
            (fun k => !(st.groups.any (fun g => decide (g.key = k))))) := by
      rw [map_fst_buildGrouped]
      exact List.filter_congr (fun k _ => by rw [groupsMapHas_eq_any])
    rw [hkeys]
    exact flatMap_congr_fun _ (fun k _ => hfun k)

/-- An option row emitted by the loop body for key `k` carries `groupKey = k`,
the OR-ed disabled flag, and an item from `k`'s bucket. -/
theorem option_mem_rowsForKey {groups : List DropdownGroup}
    {grouped : List (String × List DropdownItem)} {k : String}
    {item : DropdownItem} {d : Bool} {gk : Option String}
    (h : RenderRow.option item d gk ∈ rowsForKey groups grouped k) :
    gk = some k
    ∧ d = ((match groupsMapFind groups k with | some g => g.disabled | none => false)
        || item.disabled)
    ∧ ∃ l, groupedGet grouped k = some l ∧ item ∈ l := by
  rw [rowsForKey] at h
  cases hget : groupedGet grouped k with
  | none =>
    rw [hget] at h
    cases h
  | some l =>
    rw [hget] at h
    cases l with
    | nil => simp at h
    | cons a t =>
      simp only [List.isEmpty_cons, Bool.false_eq_true, if_false] at h
      rcases List.mem_cons.mp h with h | h
      · cases h
      · obtain ⟨i', hi', he⟩ := List.mem_map.mp h
        simp only [RenderRow.option.injEq] at he
        obtain ⟨hei, hed, hegk⟩ := he
        subst hei
        exact ⟨hegk.symm, hed.symm, a :: t, rfl, hi'⟩

/-! ## Claim C1 -/

/-- Claim C1: with unique group keys, every OptionRow of `renderRows` whose
group's group-list entry is marked disabled is itself rendered disabled,
regardless of the item's own flag. -/
theorem C1_group_disabled_dominates (st : Dropdown)
    (hnd : (st.groups.map (·.key)).Nodup)
    (item : DropdownItem) (d : Bool) (k : String)
    (hrow : RenderRow.option item d (some k) ∈ st.renderRows)
    (g : DropdownGroup) (hg : g ∈ st.groups) (hk : g.key = k) (hdis : g.disabled = true) :
    d = true := by
  cases hgb : st.groupBy with
  | none =>
    simp only [Dropdown.renderRows, hgb] at hrow
    obtain ⟨i, _, he⟩ := List.mem_map.mp hrow
    simp [RenderRow.option.injEq] at he
  | some gb =>
    simp only [Dropdown.renderRows, hgb] at hrow
    obtain ⟨k', hk', hmem⟩ := List.mem_flatMap.mp hrow
    obtain ⟨hgk, hd, -⟩ := option_mem_rowsForKey hmem
    have hkk : k = k' := by
      simpa using hgk
    subst hkk
    rw [groupsMapFind_eq_of_mem st.groups g k hnd hg hk] at hd
    simp [hdis] at hd
    exact hd

/-- Witness for C1: in the grouped demo state the South group is disabled and
its member item `S/2` (itself enabled) is rendered disabled. -/
theorem C1_group_disabled_dominates_witness :
    (stGrouped.groups.map (·.key)).Nodup
    ∧ RenderRow.option ⟨"S", "2", false⟩ true (some "s") ∈ stGrouped.renderRows
    ∧ (⟨"s", "South", true⟩ : DropdownGroup) ∈ stGrouped.groups
    ∧ (true : Bool) = true :=
  ⟨by decide, by decide, by decide,
    C1_group_disabled_dominates stGrouped (by decide) ⟨"S", "2", false⟩ true "s" (by decide)
      ⟨"s", "South", true⟩ (by decide) rfl rfl⟩

/-- Witness for C2 (amended): the grouped demo state's rows equal the
reference construction. -/
theorem C2_renderRows_grouped_witness :
    stGrouped.groupBy = some gbLowerLabel
    ∧ (stGrouped.groups.map (·.key)).Nodup
    ∧ stGrouped.renderRows = specRows stGrouped.groups gbLowerLabel stGrouped.filteredItems :=
  ⟨rfl, by decide, C2_renderRows_grouped stGrouped gbLowerLabel rfl (by decide)⟩

/-- Counterexample to C2 as stated: an item keyed by the empty string is a
non-null key the reference construction renders, but the code's JS truthiness
test drops it, so the two disagree. -/
theorem C2_renderRows_grouped_cex :
    stEmptyKeyA.groupBy = some gbEmptyKey
    ∧ (stEmptyKeyA.groups.map (·.key)).Nodup
    ∧ stEmptyKeyA.renderRows
        ≠ specRowsLiteral stEmptyKeyA.groups gbEmptyKey stEmptyKeyA.filteredItems :=
  ⟨rfl, by decide, by decide⟩

/-! ## Claim C7 -/

/-- Claim C7 (amended): in grouped mode an item is dropped exactly when its
key is `null` *or the empty string*: no option row's item has a `null` key,
and every visible item with a non-null, non-empty key appears as an option
row under that key. -/
theorem C7_null_key_drops (st : Dropdown) (gb : DropdownItem → Option String)
    (hgb : st.groupBy = some gb) :
    (∀ item d gk, RenderRow.option item d gk ∈ st.renderRows → gb item ≠ none)
    ∧ (∀ item ∈ st.filteredItems, ∀ k, gb item = some k → k ≠ "" →
        ∃ d, RenderRow.option item d (some k) ∈ st.renderRows) := by
  constructor
  · intro item d gk hrow
    simp only [Dropdown.renderRows, hgb] at hrow
    obtain ⟨k', _, hmem⟩ := List.mem_flatMap.mp hrow
    obtain ⟨-, -, l, hget, hiteml⟩ := option_mem_rowsForKey hmem
    rw [groupedGet_buildGrouped] at hget
    cases hfil : st.filteredItems.filter (fun i => decide (keyOf gb i = some k')) with
    | nil =>
      rw [hfil] at hget
      cases hget
    | cons a t =>
      rw [hfil] at hget
      have hl : a :: t = l := by
        simpa using hget
      have hmf : item ∈ st.filteredItems.filter (fun i => decide (keyOf gb i = some k')) := by
        rw [hfil, hl]
        exact hiteml
      have hkey : keyOf gb item = some k' := of_decide_eq_true (List.mem_filter.mp hmf).2
      intro hnone
      rw [keyOf, hnone] at hkey
      cases hkey
  · intro item hvis k hkk hkne
    have hpred : decide (keyOf gb item = some k) = true := by
      simp [keyOf, hkk, hkne]
    have hmemf : item ∈ st.filteredItems.filter (fun i => decide (keyOf gb i = some k)) :=
      List.mem_filter.mpr ⟨hvis, hpred⟩
    cases hfil : st.filteredItems.filter (fun i => decide (keyOf gb i = some k)) with
    | nil =>
      rw [hfil] at hmemf
      cases hmemf
    | cons a t =>
      have hget : groupedGet (buildGrouped gb st.filteredItems) k = some (a :: t) := by
        rw [groupedGet_buildGrouped, hfil]
      refine ⟨(match groupsMapFind st.groups k with
        | some g => g.disabled
        | none => false) || item.disabled, ?_⟩
      simp only [Dropdown.renderRows, hgb]
      rw [List.mem_flatMap]
      refine ⟨k, ?_, ?_⟩
      · rw [List.mem_append]
        by_cases hhas : groupsMapHas st.groups k = true
        · left
          rw [List.mem_filter]
          refine ⟨?_, by simp [groupedHas, hget]⟩
          have hany := (groupsMapHas_eq_any st.groups k) ▸ hhas
          obtain ⟨g, hgmem, hgk⟩ := List.any_eq_true.mp hany
          exact List.mem_map.mpr ⟨g, hgmem, of_decide_eq_true hgk⟩
        · right
          rw [List.mem_filter]
          refine ⟨(groupedGet_isSome_iff_mem_fst _ _).mp (by simp [hget]), ?_⟩
          have hf : groupsMapHas st.groups k = false := by
            cases hcc : groupsMapHas st.groups k
            · rfl
            · exact absurd hcc hhas
          simp [hf]
      · rw [rowsForKey, hget]
        simp only [List.isEmpty_cons, Bool.false_eq_true, if_false]
        apply List.mem_cons_of_mem
        apply List.mem_map.mpr
        refine ⟨item, ?_, rfl⟩
        rw [hfil] at hmemf
        exact hmemf

/-- Witness for C7: the visible item `Q/4` has the non-empty key `q` and
appears as an option row in that bucket. -/
theorem C7_null_key_drops_witness :
    stGrouped.groupBy = some gbLowerLabel
    ∧ (⟨"Q", "4", false⟩ : DropdownItem) ∈ stGrouped.filteredItems
    ∧ gbLowerLabel ⟨"Q", "4", false⟩ = some "q"
    ∧ ∃ d, RenderRow.option ⟨"Q", "4", false⟩ d (some "q") ∈ stGrouped.renderRows :=
  ⟨rfl, by decide, by decide,
    (C7_null_key_drops stGrouped gbLowerLabel rfl).2 ⟨"Q", "4", false⟩ (by decide) "q"
      (by decide) (by decide)⟩

/-- Counterexample to C7 as stated: the key function returns the non-null
key `""` for the visible item `B/b`, yet `renderRows` is empty — the item is
dropped even though its key is not null. -/
theorem C7_null_key_drops_cex :
    stEmptyKeyB.groupBy = some gbEmptyKey
    ∧ itemB ∈ stEmptyKeyB.filteredItems
    ∧ gbEmptyKey itemB = some ""
    ∧ stEmptyKeyB.renderRows = [] :=
  ⟨rfl, by decide, rfl, by decide⟩
